import Mathlib

/-!
Verification development for the SafeSteps crime-aware routing engine
(src/app3.py, class EnhancedCrimeAwareRouter).

The Python source is shallowly embedded: coordinates are pairs of
rationals (floats are rationals), real-valued numerics that involve
sqrt/exp are carried in `ℝ`, dictionaries become association lists,
numpy random draws become explicitly passed streams, and external
library models (sklearn KernelDensity, DBSCAN labels, shapely
containment) become abstract function/label parameters.  Fallible
Python code is embedded in `Except String`.
-/

namespace SafeSteps

/-! ### Temporal Modulator: `_get_time_period` (src/app3.py lines 394-409)

The chained Python comparison `22 <= hour < 2` is embedded exactly as
Python evaluates it: `22 ≤ hour ∧ hour < 2`. -/

def getTimePeriod (hour : ℕ) : String :=
  if 4 ≤ hour ∧ hour < 6 then "early_morning"
  else if 6 ≤ hour ∧ hour < 10 then "morning"
  else if 10 ≤ hour ∧ hour < 14 then "midday"
  else if 14 ≤ hour ∧ hour < 18 then "afternoon"
  else if 18 ≤ hour ∧ hour < 22 then "evening"
  else if 22 ≤ hour ∧ hour < 2 then "night"
  else "late_night"

/-- The time-period table as the spec states it (night covers hours
22, 23, 0, 1; late_night covers 2, 3).  Written from the spec words,
for comparison with `getTimePeriod` which is written from the source. -/
def specTimePeriod (hour : ℕ) : String :=
  if 4 ≤ hour ∧ hour < 6 then "early_morning"
  else if 6 ≤ hour ∧ hour < 10 then "morning"
  else if 10 ≤ hour ∧ hour < 14 then "midday"
  else if 14 ≤ hour ∧ hour < 18 then "afternoon"
  else if 18 ≤ hour ∧ hour < 22 then "evening"
  else if 22 ≤ hour ∨ hour < 2 then "night"
  else "late_night"

/-! ### Safety Grader: `_calculate_safety_grade` (src/app3.py lines 657-682) -/

noncomputable def calculateSafetyGrade (risk_score max_risk risk_variance : ℝ) :
    String :=
  let composite_score :=
    max 5 (risk_score * 0.6 + max_risk * 0.3 + Real.sqrt risk_variance * 0.1)
  if composite_score < 10 then "A+"
  else if composite_score < 20 then "A"
  else if composite_score < 35 then "B+"
  else if composite_score < 50 then "B"
  else if composite_score < 70 then "C+"
  else if composite_score < 90 then "C"
  else if composite_score < 120 then "D"
  else "F"

/-! ### Density Estimator bandwidth (src/app3.py line 230)

`bandwidth = max(0.005, min(0.02, 0.1 / np.sqrt(n_points)))`. -/

noncomputable def adaptiveBandwidth (n_points : ℕ) : ℝ :=
  max 0.005 (min 0.02 (0.1 / Real.sqrt n_points))

/-! ### Theorems for the Temporal Modulator and Safety Grader -/

/-- C3: the claim says hour 22 maps to the period "night" (spec table:
night covers 22-2).  The code returns "late_night" for hours 22, 23,
0 and 1, because the chained comparison `22 <= hour < 2` is never
true; the comments in the source (night: 10 PM - 2 AM, else branch:
2-4 AM) show the spec table is the intent.  This theorem evaluates the
code at the failing inputs and contrasts it with the spec table. -/
theorem getTimePeriod_night_hours_diverge :
    getTimePeriod 22 = "late_night" ∧ getTimePeriod 23 = "late_night" ∧
    getTimePeriod 0 = "late_night" ∧ getTimePeriod 1 = "late_night" ∧
    specTimePeriod 22 = "night" ∧ specTimePeriod 23 = "night" ∧
    specTimePeriod 0 = "night" ∧ specTimePeriod 1 = "night" := by
  decide

/-- C6: the Safety Grader composite formula is
max(5, risk*0.6 + max_risk*0.3 + sqrt(variance)*0.1) mapped through
the fixed ascending thresholds, and for every real-valued input the
produced grade is exactly one of the eight letters (the if-chain is
total and each branch excludes the earlier ones). -/
theorem calculateSafetyGrade_exhaustive (risk_score max_risk risk_variance : ℝ) :
    calculateSafetyGrade risk_score max_risk risk_variance ∈
      (["A+", "A", "B+", "B", "C+", "C", "D", "F"] : List String) := by
  simp only [calculateSafetyGrade]
  split_ifs <;> simp

/-- C8: the adaptive bandwidth is monotonically non-increasing in the
point count (for counts at least 1) and always lies in the clamp range
[0.005, 0.02]. -/
theorem adaptiveBandwidth_mono_and_clamped (m n : ℕ) (hm : 1 ≤ m) (hmn : m ≤ n) :
    adaptiveBandwidth n ≤ adaptiveBandwidth m ∧
    0.005 ≤ adaptiveBandwidth n ∧ adaptiveBandwidth n ≤ 0.02 := by
  unfold adaptiveBandwidth
  have hm' : (0 : ℝ) < Real.sqrt m := by
    apply Real.sqrt_pos.mpr
    exact_mod_cast Nat.lt_of_lt_of_le Nat.zero_lt_one hm
  have hmono : (0.1 : ℝ) / Real.sqrt n ≤ 0.1 / Real.sqrt m := by
    apply div_le_div_of_nonneg_left (by norm_num) hm'
    exact Real.sqrt_le_sqrt (by exact_mod_cast hmn)
  refine ⟨max_le_max le_rfl (min_le_min le_rfl hmono), le_max_left _ _, ?_⟩
  apply max_le (by norm_num) (min_le_left _ _)

/-- Witness for C8 at m = 1, n = 4. -/
theorem adaptiveBandwidth_mono_and_clamped_witness :
    adaptiveBandwidth 4 ≤ adaptiveBandwidth 1 ∧
    0.005 ≤ adaptiveBandwidth 4 ∧ adaptiveBandwidth 4 ≤ 0.02 :=
  adaptiveBandwidth_mono_and_clamped 1 4 (by decide) (by decide)

/-! ### Polyline decoder: `_decode_polyline` (src/app3.py lines 960-990)

The inner while-loop reads one varint: starting from shift = 0 and
result = 0 it repeatedly takes `byte = ord(ch) - 63`, ORs
`(byte & 0x1f) << shift` into result, and stops when the string is
exhausted or `byte < 0x20`.  Python `x & 0x1f` equals the mathematical
`x mod 32` also for negative x, which is `Int.emod` here. -/

def parseVarint : List Char → ℕ → ℕ → ℕ × List Char
  | [], _, result => (result, [])
  | c :: rest, shift, result =>
      let byte : ℤ := (c.toNat : ℤ) - 63
      let result := result ||| ((byte % 32).toNat <<< shift)
      if 32 ≤ byte then parseVarint rest (shift + 5) result
      else (result, rest)

/-- Python `~x` is `-x - 1`; the decoder maps an unsigned varint to a
signed delta by `~(result >> 1)` when the low bit is set, else
`result >> 1`. -/
def varintDelta (result : ℕ) : ℤ :=
  if result &&& 1 = 1 then -((result >>> 1 : ℕ) : ℤ) - 1 else ((result >>> 1 : ℕ) : ℤ)

theorem parseVarint_length_le :
    ∀ (cs : List Char) (shift result : ℕ),
      (parseVarint cs shift result).2.length ≤ cs.length
  | [], _, _ => by simp [parseVarint]
  | c :: rest, shift, result => by
      simp only [parseVarint]
      split
      · exact le_trans (parseVarint_length_le rest _ _) (Nat.le_succ _)
      · exact Nat.le_succ _

theorem parseVarint_length_lt (c : Char) (rest : List Char) (shift result : ℕ) :
    (parseVarint (c :: rest) shift result).2.length < (c :: rest).length := by
  simp only [parseVarint]
  split
  · exact Nat.lt_succ_of_le (parseVarint_length_le rest _ _)
  · exact Nat.lt_succ_of_le le_rfl

/-- Outer while-loop of the decoder: one latitude varint then one
longitude varint per iteration, accumulating signed deltas. -/
def decodeLoop : List Char → ℤ → ℤ → List (ℚ × ℚ)
  | [], _, _ => []
  | c :: rest, lat, lng =>
      let pLat := parseVarint (c :: rest) 0 0
      let pLng := parseVarint pLat.2 0 0
      let lat' := lat + varintDelta pLat.1
      let lng' := lng + varintDelta pLng.1
      ((lat' : ℚ) / 100000, (lng' : ℚ) / 100000) :: decodeLoop pLng.2 lat' lng'
  termination_by cs _ _ => cs.length
  decreasing_by
    exact lt_of_le_of_lt (parseVarint_length_le _ _ _)
      (parseVarint_length_lt _ _ _ _)

def decodePolyline (polyline_str : String) : List (ℚ × ℚ) :=
  decodeLoop polyline_str.toList 0 0

theorem decodeLoop_length_le (cs : List Char) (lat lng : ℤ) :
    (decodeLoop cs lat lng).length ≤ cs.length := by
  induction cs, lat, lng using decodeLoop.induct with
  | case1 lat lng => simp [decodeLoop]
  | case2 c rest lat lng pLat pLng lat' lng' ih =>
      rw [decodeLoop]
      refine Nat.succ_le_of_lt (lt_of_le_of_lt ih ?_)
      exact lt_of_le_of_lt (parseVarint_length_le _ _ _)
        (parseVarint_length_lt _ _ _ _)

/-- C10: for every input string, well-formed polyline or not, the
decoder terminates and returns a coordinate list without raising: the
decoder is a total function producing at most one coordinate per input
character (so at most length-many), and each varint read from a
nonempty rest of the string consumes at least one character (the index
strictly increases), which is the decrease that drives termination;
reads at the end of the string stop instead of reading past it. -/
theorem decodePolyline_total (s : String) :
    (decodePolyline s).length ≤ s.length ∧
    ∀ cs : List Char, cs ≠ [] → ((parseVarint cs 0 0).2).length < cs.length := by
  constructor
  · have h := decodeLoop_length_le s.toList 0 0
    rw [decodePolyline]
    exact le_trans h (le_of_eq (String.length_data s))
  · intro cs hcs
    match cs, hcs with
    | c :: rest, _ => exact parseVarint_length_lt c rest 0 0

/-- Witness for C10 at the string "ab" and the nonempty character
list consisting of the single character a. -/
theorem decodePolyline_total_witness :
    (decodePolyline "ab").length ≤ "ab".length ∧
    ((parseVarint [Char.ofNat 97] 0 0).2).length < ([Char.ofNat 97] : List Char).length :=
  ⟨(decodePolyline_total "ab").1,
   (decodePolyline_total "ab").2 [Char.ofNat 97] (by decide)⟩

/-! ### Route Scorer: `score_route_enhanced` (src/app3.py lines 526-582)

The method decodes the polyline, then for each consecutive coordinate
pair computes the segment length (shapely LineString length of two
points, i.e. the Euclidean distance), samples `max(3, int(length*1000))`
points along the segment by linear interpolation, evaluates the risk
function at each sample, and aggregates.  The per-sample risk
evaluator (`self._get_enhanced_location_risk_score`) is passed as a
function parameter `riskFn`.  The returned Python dict is embedded as
an association list from field names to values, since the two return
paths of the source build dicts with different key sets. -/

structure SegmentScore where
  start : ℚ × ℚ
  seg_end : ℚ × ℚ
  risk : ℝ
  distance : ℝ
  weighted_risk : ℝ

noncomputable def segmentLength (s e : ℚ × ℚ) : ℝ :=
  Real.sqrt (((e.1 : ℝ) - (s.1 : ℝ)) ^ 2 + ((e.2 : ℝ) - (s.2 : ℝ)) ^ 2)

/-- num_samples = max(3, int(segment_length * 1000)); the length is
non-negative, so Python int() truncation is the floor. -/
noncomputable def numSamples (len : ℝ) : ℕ :=
  max 3 (⌊len * 1000⌋.toNat)

/-- Sample point j of a segment: t = j / (num_samples - 1) when there
is more than one sample (else 0), linearly interpolated between the
segment endpoints. -/
noncomputable def samplePoint (s e : ℚ × ℚ) (num_samples j : ℕ) : ℝ × ℝ :=
  let t : ℝ := if 1 < num_samples then (j : ℝ) / ((num_samples : ℝ) - 1) else 0
  ((s.1 : ℝ) + t * ((e.1 : ℝ) - (s.1 : ℝ)),
   (s.2 : ℝ) + t * ((e.2 : ℝ) - (s.2 : ℝ)))

noncomputable def mkSegmentScore (riskFn : ℝ × ℝ → ℝ) (s e : ℚ × ℚ) :
    SegmentScore :=
  let segment_length := segmentLength s e
  let num_samples := numSamples segment_length
  let segment_risk := (List.range num_samples).foldl
    (fun acc j => acc + riskFn (samplePoint s e num_samples j)) 0
  let avg_segment_risk := segment_risk / (num_samples : ℝ)
  ⟨s, e, avg_segment_risk, segment_length, avg_segment_risk * segment_length⟩

/-- The for-loop over consecutive coordinate pairs, accumulating the
segment list, total_risk and total_distance. -/
noncomputable def routeLoop (riskFn : ℝ × ℝ → ℝ) :
    List (ℚ × ℚ) → List SegmentScore × ℝ × ℝ
  | s :: e :: rest =>
      let seg := mkSegmentScore riskFn s e
      let trip := routeLoop riskFn (e :: rest)
      (seg :: trip.1, seg.weighted_risk + trip.2.1, seg.distance + trip.2.2)
  | _ => ([], 0, 0)

/-- Values stored in the returned dict: numbers or the segment list. -/
inductive FieldVal where
  | num : ℝ → FieldVal
  | segs : List SegmentScore → FieldVal

/-- Python max() over the risks of a nonempty segment list (the source
guards with `if segment_scores else 0`). -/
noncomputable def listMaxR : List ℝ → ℝ
  | [] => 0
  | x :: xs => xs.foldl max x

/-- numpy population variance: mean of squared deviations. -/
noncomputable def npVar (l : List ℝ) : ℝ :=
  ((l.map (fun x => (x - l.sum / (l.length : ℝ)) ^ 2)).sum) / (l.length : ℝ)

noncomputable def scoreRouteEnhanced (riskFn : ℝ × ℝ → ℝ) (polyline : String) :
    List (String × FieldVal) :=
  let coords := decodePolyline polyline
  if coords.length < 2 then
    [("total_risk", FieldVal.num 0),
     ("segment_scores", FieldVal.segs []),
     ("normalized_risk", FieldVal.num 0)]
  else
    let trip := routeLoop riskFn coords
    let segment_scores := trip.1
    let total_risk := trip.2.1
    let total_distance := trip.2.2
    let normalized_risk := if 0 < total_distance then total_risk / total_distance else 0
    [("total_risk", FieldVal.num total_risk),
     ("segment_scores", FieldVal.segs segment_scores),
     ("normalized_risk", FieldVal.num normalized_risk),
     ("max_segment_risk", FieldVal.num
        (if segment_scores.isEmpty then 0 else listMaxR (segment_scores.map SegmentScore.risk))),
     ("risk_variance", FieldVal.num
        (if 1 < segment_scores.length then npVar (segment_scores.map SegmentScore.risk) else 0))]

theorem decodePolyline_empty : decodePolyline "" = [] := by
  rw [decodePolyline]
  have h : "".toList = [] := rfl
  rw [h]
  simp [decodeLoop]

/-- C2 counterexample: the short-route early return of the source
builds a dict with only the keys total_risk, segment_scores and
normalized_risk; the claim says every RouteScore field is present, but
max_segment_risk and risk_variance are absent for the empty polyline. -/
theorem scoreRouteEnhanced_short_route_missing_fields :
    List.lookup "max_segment_risk" (scoreRouteEnhanced (fun _ => 0) "") = none ∧
    List.lookup "risk_variance" (scoreRouteEnhanced (fun _ => 0) "") = none := by
  constructor <;>
    simp [scoreRouteEnhanced, decodePolyline_empty, List.lookup]

/-- C2 amended: a route whose decoded polyline has fewer than 2
coordinates yields the zero-valued result dict containing only the
fields total_risk (0), segment_scores (empty) and normalized_risk (0),
rather than an error; the max_segment_risk and risk_variance fields
are not included on this path. -/
theorem scoreRouteEnhanced_short_route (riskFn : ℝ × ℝ → ℝ) (s : String)
    (h : (decodePolyline s).length < 2) :
    scoreRouteEnhanced riskFn s =
      [("total_risk", FieldVal.num 0),
       ("segment_scores", FieldVal.segs []),
       ("normalized_risk", FieldVal.num 0)] := by
  simp only [scoreRouteEnhanced]
  rw [if_pos h]

/-- Witness for the amended C2 at the empty polyline string. -/
theorem scoreRouteEnhanced_short_route_witness :
    scoreRouteEnhanced (fun _ => 0) "" =
      [("total_risk", FieldVal.num 0),
       ("segment_scores", FieldVal.segs []),
       ("normalized_risk", FieldVal.num 0)] :=
  scoreRouteEnhanced_short_route (fun _ => 0) ""
    (by rw [decodePolyline_empty]; decide)

theorem foldl_add_nonneg (f : ℕ → ℝ) (hf : ∀ j, 0 ≤ f j) :
    ∀ (l : List ℕ) (acc : ℝ), 0 ≤ acc → 0 ≤ l.foldl (fun a j => a + f j) acc
  | [], _, hacc => hacc
  | j :: rest, acc, hacc =>
      foldl_add_nonneg f hf rest (acc + f j) (add_nonneg hacc (hf j))

theorem mkSegmentScore_nonneg (riskFn : ℝ × ℝ → ℝ)
    (hpos : ∀ p, 0 ≤ riskFn p) (s e : ℚ × ℚ) :
    0 ≤ (mkSegmentScore riskFn s e).risk ∧
    0 ≤ (mkSegmentScore riskFn s e).distance ∧
    (mkSegmentScore riskFn s e).weighted_risk =
      (mkSegmentScore riskFn s e).risk * (mkSegmentScore riskFn s e).distance := by
  have hlen : 0 ≤ segmentLength s e := Real.sqrt_nonneg _
  have hrisk : 0 ≤ (List.range (numSamples (segmentLength s e))).foldl
      (fun acc j => acc + riskFn (samplePoint s e (numSamples (segmentLength s e)) j)) 0 :=
    foldl_add_nonneg _ (fun j => hpos _) _ 0 le_rfl
  refine ⟨?_, hlen, rfl⟩
  exact div_nonneg hrisk (Nat.cast_nonneg _)

theorem routeLoop_sums (riskFn : ℝ × ℝ → ℝ) :
    ∀ cs : List (ℚ × ℚ),
      (routeLoop riskFn cs).2.1 =
        (((routeLoop riskFn cs).1).map SegmentScore.weighted_risk).sum ∧
      (routeLoop riskFn cs).2.2 =
        (((routeLoop riskFn cs).1).map SegmentScore.distance).sum
  | [] => by simp [routeLoop]
  | [_] => by simp [routeLoop]
  | s :: e :: rest => by
      have ih := routeLoop_sums riskFn (e :: rest)
      simp [routeLoop, ih.1, ih.2]

theorem routeLoop_mem (riskFn : ℝ × ℝ → ℝ) (hpos : ∀ p, 0 ≤ riskFn p) :
    ∀ (cs : List (ℚ × ℚ)) (seg : SegmentScore), seg ∈ (routeLoop riskFn cs).1 →
      0 ≤ seg.risk ∧ 0 ≤ seg.distance ∧
      seg.weighted_risk = seg.risk * seg.distance
  | [], _, hseg => by simp [routeLoop] at hseg
  | [_], _, hseg => by simp [routeLoop] at hseg
  | s :: e :: rest, seg, hseg => by
      simp only [routeLoop, List.mem_cons] at hseg
      rcases hseg with h | h
      · subst h
        exact mkSegmentScore_nonneg riskFn hpos s e
      · exact routeLoop_mem riskFn hpos (e :: rest) seg h

/-- C9: for a route of at least 2 decoded coordinates and a
non-negative per-sample risk function, the returned dict is internally
consistent: total_risk is the sum of the weighted_risk values of the
returned segment breakdown (each weighted_risk being mean sample risk
times segment length), normalized_risk is total_risk divided by the
total distance and 0 when that distance is 0, and normalized_risk is
non-negative (risk values are real numbers here, hence finite). -/
theorem scoreRouteEnhanced_consistent (riskFn : ℝ × ℝ → ℝ) (s : String)
    (h2 : 2 ≤ (decodePolyline s).length) (hpos : ∀ p, 0 ≤ riskFn p) :
    ∃ (segs : List SegmentScore) (total dist : ℝ),
      List.lookup "total_risk" (scoreRouteEnhanced riskFn s) =
        some (FieldVal.num total) ∧
      List.lookup "segment_scores" (scoreRouteEnhanced riskFn s) =
        some (FieldVal.segs segs) ∧
      List.lookup "normalized_risk" (scoreRouteEnhanced riskFn s) =
        some (FieldVal.num (if 0 < dist then total / dist else 0)) ∧
      total = (segs.map SegmentScore.weighted_risk).sum ∧
      dist = (segs.map SegmentScore.distance).sum ∧
      (∀ seg ∈ segs, seg.weighted_risk = seg.risk * seg.distance) ∧
      0 ≤ (if 0 < dist then total / dist else 0) := by
  refine ⟨(routeLoop riskFn (decodePolyline s)).1,
          (routeLoop riskFn (decodePolyline s)).2.1,
          (routeLoop riskFn (decodePolyline s)).2.2, ?_, ?_, ?_, ?_, ?_, ?_, ?_⟩
  · simp only [scoreRouteEnhanced]
    rw [if_neg (Nat.not_lt.mpr h2)]
    simp [List.lookup]
  · simp only [scoreRouteEnhanced]
    rw [if_neg (Nat.not_lt.mpr h2)]
    simp [List.lookup]
  · simp only [scoreRouteEnhanced]
    rw [if_neg (Nat.not_lt.mpr h2)]
    simp [List.lookup]
  · exact (routeLoop_sums riskFn _).1
  · exact (routeLoop_sums riskFn _).2
  · intro seg hseg
    exact (routeLoop_mem riskFn hpos _ seg hseg).2.2
  · split
    · rename_i hdist
      refine div_nonneg ?_ (le_of_lt hdist)
      rw [(routeLoop_sums riskFn _).1]
      refine List.sum_nonneg ?_
      intro x hx
      simp only [List.mem_map] at hx
      obtain ⟨seg, hseg, rfl⟩ := hx
      have h := routeLoop_mem riskFn hpos _ seg hseg
      rw [h.2.2]
      exact mul_nonneg h.1 h.2.1
    · exact le_rfl

theorem parseVarint_qmark (rest : List Char) :
    parseVarint (Char.ofNat 63 :: rest) 0 0 = (0, rest) := by
  simp [parseVarint]

theorem decodePolyline_four_qmarks :
    decodePolyline "????" = [(0, 0), (0, 0)] := by
  have h : "????".toList =
      [Char.ofNat 63, Char.ofNat 63, Char.ofNat 63, Char.ofNat 63] := rfl
  rw [decodePolyline, h]
  rw [decodeLoop]
  simp only [parseVarint_qmark]
  rw [decodeLoop]
  simp only [parseVarint_qmark]
  rw [decodeLoop]
  simp [varintDelta]

/-- Witness for C9 at a polyline of two coordinates and the zero risk
function. -/
theorem scoreRouteEnhanced_consistent_witness :
    2 ≤ (decodePolyline "????").length ∧
    ∃ (segs : List SegmentScore) (total dist : ℝ),
      List.lookup "total_risk" (scoreRouteEnhanced (fun _ => 0) "????") =
        some (FieldVal.num total) ∧
      List.lookup "segment_scores" (scoreRouteEnhanced (fun _ => 0) "????") =
        some (FieldVal.segs segs) ∧
      List.lookup "normalized_risk" (scoreRouteEnhanced (fun _ => 0) "????") =
        some (FieldVal.num (if 0 < dist then total / dist else 0)) ∧
      total = (segs.map SegmentScore.weighted_risk).sum ∧
      dist = (segs.map SegmentScore.distance).sum ∧
      (∀ seg ∈ segs, seg.weighted_risk = seg.risk * seg.distance) ∧
      0 ≤ (if 0 < dist then total / dist else 0) :=
  ⟨by rw [decodePolyline_four_qmarks]; decide,
   scoreRouteEnhanced_consistent (fun _ => 0) "????"
     (by rw [decodePolyline_four_qmarks]; decide) (fun _ => le_rfl)⟩

/-! ### Synthetic Incident Generator
(`_generate_synthetic_crime_locations`, src/app3.py lines 245-283, and
`_generate_crime_pattern`, lines 286-343)

numpy random draws are passed in explicitly as streams indexed by
cluster and point: `center_idx` stands for randint(0, len(valid_points))
(taken mod the list length), `poisson` for poisson(2), `gauss` for the
standard normal 2-vector that is scaled by the spread, and
`spread_pick` for choice([0.005, 0.015], p=[0.7, 0.3]) in the mixed
pattern (true picks 0.005). -/

inductive Pattern where
  | clustered
  | semi_random
  | mixed
deriving DecidableEq

structure Rnd where
  center_idx : ℕ → ℕ
  poisson : ℕ → ℕ
  gauss : ℕ → ℕ → ℚ × ℚ
  spread_pick : ℕ → ℕ → Bool

/-- numpy min of a coordinate list (the source only evaluates it on
nonempty lists). -/
def listMinQ : List ℚ → ℚ
  | [] => 0
  | x :: xs => xs.foldl min x

def listMaxQ : List ℚ → ℚ
  | [] => 0
  | x :: xs => xs.foldl max x

/-- One random offset point around a cluster center: the spread is
selected by pattern class and urban flag (for the mixed pattern, by a
random pick between 0.005 and 0.015), and the offset is the scaled
standard normal draw. -/
def genOffsetPoint (center : ℚ × ℚ) (pattern : Pattern) (is_urban : Bool) (rnd : Rnd)
    (cluster_idx point_idx : ℕ) : ℚ × ℚ :=
  let spread : ℚ :=
    match pattern with
    | .clustered => if is_urban then 0.005 else 0.01
    | .semi_random => if is_urban then 0.01 else 0.02
    | .mixed => if rnd.spread_pick cluster_idx point_idx then 0.005 else 0.015
  let g := rnd.gauss cluster_idx point_idx
  (center.1 + spread * g.1, center.2 + spread * g.2)

/-- The cheap bounding-box containment check of the source: appends
the new point only when it lies within the min/max box of the valid
points. -/
def maybeAppend (validPoints acc : List (ℚ × ℚ)) (new_point : ℚ × ℚ) :
    List (ℚ × ℚ) :=
  if listMinQ (validPoints.map Prod.fst) ≤ new_point.1 ∧
     new_point.1 ≤ listMaxQ (validPoints.map Prod.fst) ∧
     listMinQ (validPoints.map Prod.snd) ≤ new_point.2 ∧
     new_point.2 ≤ listMaxQ (validPoints.map Prod.snd)
  then acc ++ [new_point] else acc

theorem maybeAppend_length (validPoints acc : List (ℚ × ℚ)) (np : ℚ × ℚ) :
    (maybeAppend validPoints acc np).length ≤ acc.length + 1 := by
  rw [maybeAppend]
  split
  · simp
  · exact Nat.le_succ _

/-- Inner for-loop of `_generate_crime_pattern`: one iteration per
point index in range(min(cluster_size, count - len(locations))),
appending the offset point when it passes the bounding-box check, and
breaking once count points exist. -/
def clusterInner (validPoints : List (ℚ × ℚ)) (center : ℚ × ℚ) (pattern : Pattern)
    (is_urban : Bool) (rnd : Rnd) (cluster_idx count : ℕ) :
    ℕ → ℕ → List (ℚ × ℚ) → List (ℚ × ℚ)
  | 0, _, acc => acc
  | iters + 1, point_idx, acc =>
      if count ≤ (maybeAppend validPoints acc
          (genOffsetPoint center pattern is_urban rnd cluster_idx point_idx)).length then
        maybeAppend validPoints acc
          (genOffsetPoint center pattern is_urban rnd cluster_idx point_idx)
      else
        clusterInner validPoints center pattern is_urban rnd cluster_idx count
          iters (point_idx + 1)
          (maybeAppend validPoints acc
            (genOffsetPoint center pattern is_urban rnd cluster_idx point_idx))

/-- Outer for-loop of `_generate_crime_pattern` over cluster indices:
picks a cluster center from the valid points, a poisson-slack cluster
size, runs the inner loop, and breaks once count points exist. -/
def clusterOuter (validPoints : List (ℚ × ℚ)) (pattern : Pattern) (is_urban : Bool)
    (rnd : Rnd) (count points_per_cluster : ℕ) :
    List ℕ → List (ℚ × ℚ) → List (ℚ × ℚ)
  | [], acc => acc
  | cluster_idx :: rest, acc =>
      let center := (validPoints.get? (rnd.center_idx cluster_idx % validPoints.length)).getD (0, 0)
      let cluster_size := points_per_cluster + rnd.poisson cluster_idx
      let iters := min cluster_size (count - acc.length)
      let acc' := clusterInner validPoints center pattern is_urban rnd cluster_idx count
        iters 0 acc
      if count ≤ acc'.length then acc'
      else clusterOuter validPoints pattern is_urban rnd count points_per_cluster rest acc'

def generateCrimePattern (validPoints : List (ℚ × ℚ)) (count : ℤ) (n_clusters : ℕ)
    (pattern : Pattern) (is_urban : Bool) (rnd : Rnd) : List (ℚ × ℚ) :=
  if validPoints.length = 0 ∨ count ≤ 0 then []
  else
    let c := count.toNat
    let points_per_cluster := max 1 (c / n_clusters)
    clusterOuter validPoints pattern is_urban rnd c points_per_cluster
      (List.range n_clusters) []

/-- Urban classification of a district by substring membership on the
lowercased name (src/app3.py line 251). -/
def isUrban (district : String) : Bool :=
  (["city", "bengaluru", "mysuru", "hubballi"] : List String).any
    (fun city => decide (city.toList <:+: district.toList.map Char.toLower))

/-- `_generate_synthetic_crime_locations`: one generated point list
per (crime type, count) pair; counts are the cleaned non-negative
numeric values of the crime ledger (rationals, truncated by int()),
and districts whose counts sum to more than 500 extend every crime
type list with one shared batch of 30 bonus clustered points. -/
def generateSyntheticCrimeLocations (district : String) (crimes : List (String × ℚ))
    (validPoints : List (ℚ × ℚ)) (rnd : String → Rnd) (rndExtra : Rnd) :
    List (String × List (ℚ × ℚ)) :=
  let is_urban := isUrban district
  let base := crimes.map (fun ct_count =>
    let crime_type := ct_count.1
    let count := ct_count.2
    if count = 0 then (crime_type, ([] : List (ℚ × ℚ)))
    else
      let countI : ℤ := Rat.floor count
      let nc_pat : ℕ × Pattern :=
        if crime_type ∈ (["THEFT", "BURGLARY-DAY", "CYBER CRIME"] : List String) then
          (max 1 (min 5 (countI.toNat / 10)), Pattern.clustered)
        else if crime_type ∈ (["MURDER", "RAPE", "DACOITY"] : List String) then
          (max 1 (min 3 (countI.toNat / 15)), Pattern.semi_random)
        else
          (max 1 (min 4 (countI.toNat / 12)), Pattern.mixed)
      (crime_type,
       generateCrimePattern validPoints countI nc_pat.1 nc_pat.2 is_urban (rnd crime_type)))
  if 500 < (crimes.map Prod.snd).sum then
    let extra_points := generateCrimePattern validPoints 30 2 Pattern.clustered true rndExtra
    base.map (fun p => (p.1, p.2 ++ extra_points))
  else base

theorem clusterInner_length_le (validPoints : List (ℚ × ℚ)) (center : ℚ × ℚ)
    (pattern : Pattern) (is_urban : Bool) (rnd : Rnd) (cluster_idx count : ℕ) :
    ∀ (iters point_idx : ℕ) (acc : List (ℚ × ℚ)),
      (clusterInner validPoints center pattern is_urban rnd cluster_idx count
        iters point_idx acc).length ≤ acc.length + iters
  | 0, _, acc => le_of_eq rfl
  | iters + 1, point_idx, acc => by
      rw [clusterInner]
      set acc' := maybeAppend validPoints acc
        (genOffsetPoint center pattern is_urban rnd cluster_idx point_idx) with hacc'
      have hlen : acc'.length ≤ acc.length + 1 := maybeAppend_length _ _ _
      split
      · omega
      · have := clusterInner_length_le validPoints center pattern is_urban rnd
          cluster_idx count iters (point_idx + 1) acc'
        omega

theorem clusterOuter_length_le (validPoints : List (ℚ × ℚ)) (pattern : Pattern)
    (is_urban : Bool) (rnd : Rnd) (count points_per_cluster : ℕ) :
    ∀ (idxs : List ℕ) (acc : List (ℚ × ℚ)), acc.length ≤ count →
      (clusterOuter validPoints pattern is_urban rnd count points_per_cluster
        idxs acc).length ≤ count
  | [], _, hacc => hacc
  | cluster_idx :: rest, acc, hacc => by
      simp only [clusterOuter]
      have hinner := clusterInner_length_le validPoints
        ((validPoints.get? (rnd.center_idx cluster_idx % validPoints.length)).getD (0, 0))
        pattern is_urban rnd cluster_idx count
        (min (points_per_cluster + rnd.poisson cluster_idx) (count - acc.length)) 0 acc
      have hle : (clusterInner validPoints
          ((validPoints.get? (rnd.center_idx cluster_idx % validPoints.length)).getD (0, 0))
          pattern is_urban rnd cluster_idx count
          (min (points_per_cluster + rnd.poisson cluster_idx) (count - acc.length))
          0 acc).length ≤ count := by omega
      split
      · exact hle
      · exact clusterOuter_length_le validPoints pattern is_urban rnd count
          points_per_cluster rest _ hle

theorem generateCrimePattern_length_le (validPoints : List (ℚ × ℚ)) (count : ℤ)
    (n_clusters : ℕ) (pattern : Pattern) (is_urban : Bool) (rnd : Rnd) :
    (generateCrimePattern validPoints count n_clusters pattern is_urban rnd).length ≤
      count.toNat := by
  rw [generateCrimePattern]
  split
  · simp
  · exact clusterOuter_length_le validPoints pattern is_urban rnd count.toNat
      (max 1 (count.toNat / n_clusters)) (List.range n_clusters) [] (Nat.zero_le _)

/-- Empty generation for non-positive counts (the callers pass count
as int(count) and the pattern generator returns [] for count ≤ 0). -/
theorem generateCrimePattern_zero (validPoints : List (ℚ × ℚ)) (n_clusters : ℕ)
    (pattern : Pattern) (is_urban : Bool) (rnd : Rnd) (count : ℤ) (hc : count ≤ 0) :
    generateCrimePattern validPoints count n_clusters pattern is_urban rnd = [] := by
  rw [generateCrimePattern, if_pos (Or.inr hc)]

/-- A constant random stream used for the concrete evaluations: every
cluster center index and poisson draw is 0, every gauss draw is the
zero vector, and the mixed-pattern pick is the first choice. -/
def rndZero : Rnd where
  center_idx _ := 0
  poisson _ := 0
  gauss _ _ := (0, 0)
  spread_pick _ _ := true

section ConcreteEvaluation

attribute [local semireducible] Rat.add Rat.mul Rat.sub Rat.inv Rat.ofScientific

set_option maxRecDepth 4000 in
/-- C4 counterexample: in the district input with crimes THEFT = 501
and MURDER = 0 (total 501 > 500), one valid point and the constant
random stream, the generated point list for the count-0 crime type
MURDER is not empty: the 30 shared bonus points of the high-total
branch are appended to the list of every crime type. -/
theorem generateSyntheticCrimeLocations_zero_count_nonempty :
    (List.lookup "MURDER" (generateSyntheticCrimeLocations "x"
        [("THEFT", 501), ("MURDER", 0)] [(0, 0)] (fun _ => rndZero) rndZero)).getD []
      ≠ [] := by
  decide

end ConcreteEvaluation

/-- C4 amended: for every (district, crime type, count) input, when
the counts of the district sum to at most 500 the generated point list for
a count-0 crime type is empty and a positive count yields at most
count points; when the sum exceeds 500 the list of every crime type
additionally receives the shared bonus batch of at most 30 clustered
points, so the bound is count + 30 and count-0 lists may be
nonempty. -/
theorem generateSyntheticCrimeLocations_bounds (district : String)
    (crimes : List (String × ℚ)) (validPoints : List (ℚ × ℚ))
    (rnd : String → Rnd) (rndExtra : Rnd) (p : String × List (ℚ × ℚ))
    (hp : p ∈ generateSyntheticCrimeLocations district crimes validPoints rnd rndExtra) :
    ∃ cnt : ℚ, (p.1, cnt) ∈ crimes ∧
      (if (crimes.map Prod.snd).sum ≤ 500 then
        (cnt = 0 → p.2 = []) ∧ p.2.length ≤ (Rat.floor cnt).toNat
       else p.2.length ≤ (Rat.floor cnt).toNat + 30) := by
  simp only [generateSyntheticCrimeLocations] at hp
  by_cases hsum : (crimes.map Prod.snd).sum ≤ 500
  · rw [if_neg (not_lt.mpr hsum)] at hp
    simp only [List.mem_map] at hp
    obtain ⟨⟨ct, cnt⟩, hmem, hEq⟩ := hp
    by_cases hz : cnt = 0
    · subst hz
      rw [if_pos rfl] at hEq
      refine ⟨0, ?_, ?_⟩
      · rw [← hEq]; exact hmem
      · rw [if_pos hsum]
        refine ⟨fun _ => ?_, ?_⟩
        · rw [← hEq]
        · rw [← hEq]; simp
    · rw [if_neg hz] at hEq
      refine ⟨cnt, ?_, ?_⟩
      · rw [← hEq]; exact hmem
      · rw [if_pos hsum]
        refine ⟨fun h => absurd h hz, ?_⟩
        rw [← hEq]
        exact generateCrimePattern_length_le _ _ _ _ _ _
  · rw [if_pos (not_le.mp hsum)] at hp
    simp only [List.mem_map] at hp
    obtain ⟨⟨ct1, locs⟩, hmem1, hEq1⟩ := hp
    obtain ⟨⟨ct, cnt⟩, hmem, hEq⟩ := hmem1
    by_cases hz : cnt = 0
    · subst hz
      rw [if_pos rfl] at hEq
      cases hEq
      refine ⟨0, ?_, ?_⟩
      · rw [← hEq1]; exact hmem
      · rw [if_neg hsum, ← hEq1]
        simpa using generateCrimePattern_length_le validPoints 30 2
          Pattern.clustered true rndExtra
    · rw [if_neg hz] at hEq
      cases hEq
      refine ⟨cnt, ?_, ?_⟩
      · rw [← hEq1]; exact hmem
      · rw [if_neg hsum, ← hEq1]
        simp only [List.length_append]
        exact Nat.add_le_add (generateCrimePattern_length_le _ _ _ _ _ _)
          (generateCrimePattern_length_le _ _ _ _ _ _)

section ConcreteEvaluationTwo

attribute [local semireducible] Rat.add Rat.mul Rat.sub Rat.inv Rat.ofScientific

/-- Witness for the amended C4: the district input with the single
crime type THEFT of count 0 and no valid points yields the pair with
the empty point list. -/
theorem generateSyntheticCrimeLocations_bounds_witness :
    ∃ cnt : ℚ,
      ((("THEFT", ([] : List (ℚ × ℚ))).1, cnt) ∈
        ([("THEFT", (0 : ℚ))] : List (String × ℚ))) ∧
      (if (([("THEFT", (0 : ℚ))] : List (String × ℚ)).map Prod.snd).sum ≤ 500 then
        (cnt = 0 → ("THEFT", ([] : List (ℚ × ℚ))).2 = []) ∧
          ("THEFT", ([] : List (ℚ × ℚ))).2.length ≤ (Rat.floor cnt).toNat
       else ("THEFT", ([] : List (ℚ × ℚ))).2.length ≤ (Rat.floor cnt).toNat + 30) :=
  generateSyntheticCrimeLocations_bounds "x" [("THEFT", 0)] [] (fun _ => rndZero)
    rndZero ("THEFT", []) (by decide)

end ConcreteEvaluationTwo

/-! ### Hotspot Detector: `_identify_crime_hotspots` (src/app3.py lines 345-392)

The DBSCAN clustering of sklearn is abstracted by its output: a label
list parallel to the pooled incident list, with -1 marking noise.  The
source iterates over the set of labels; here the deduplicated label
list is used, which is one iteration order of that set — the proved
properties are independent of the order.  A district with fewer than 5
pooled points is skipped by the source (its dict entry is absent, and
every consumer reads it with .get(district, []) defaulting to the
empty list), embedded as returning the empty hotspot list. -/

/-- The crime severity weight table (src/app3.py lines 41-56). -/
def crime_weights : List (String × ℚ) :=
  [("MURDER", 10.0), ("ATTEMPT TO MURDER", 8.5), ("RAPE", 9.0), ("DACOITY", 7.5),
   ("ROBBERY", 6.5), ("BURGLARY-DAY", 4.0), ("BURGLARY-NIGHT", 5.5), ("THEFT", 3.0),
   ("MOLESTATION", 7.0), ("FATAL MOTOR ACCIDENTS", 4.5),
   ("NON-FATAL MOTOR ACCIDENTS", 2.0), ("CYBER CRIME", 1.5), ("POCSO", 8.0),
   ("POCSO RAPE", 9.5)]

/-- self.crime_weights.get(crime_type, 1.0). -/
def weightOf (crime_type : String) : ℚ :=
  (crime_weights.lookup crime_type).getD 1.0

/-- All pooled incident points of a district across crime types, each
weighted by its crime type severity weight. -/
def pooledIncidents (crime_locations : List (String × List (ℚ × ℚ))) :
    List ((ℚ × ℚ) × ℚ) :=
  crime_locations.flatMap (fun ctl => ctl.2.map (fun loc => (loc, weightOf ctl.1)))

structure Hotspot where
  center : ℚ × ℚ
  intensity : ℚ
  radius : ℝ
  crime_count : ℕ

/-- One hotspot summary from the member points of a cluster: weighted
centroid, intensity = sum of member weights, radius = maximum distance
from the center to a member, count = member count. -/
noncomputable def mkHotspot (pts : List ((ℚ × ℚ) × ℚ)) : Hotspot :=
  let wsum := (pts.map Prod.snd).sum
  let cx := (pts.map (fun pw => pw.2 * pw.1.1)).sum / wsum
  let cy := (pts.map (fun pw => pw.2 * pw.1.2)).sum / wsum
  let radius := (pts.map (fun pw =>
      Real.sqrt (((pw.1.1 : ℝ) - (cx : ℝ)) ^ 2 + ((pw.1.2 : ℝ) - (cy : ℝ)) ^ 2))).foldr max 0
  ⟨(cx, cy), wsum, radius, pts.length⟩

noncomputable def identifyCrimeHotspots
    (crime_locations : List (String × List (ℚ × ℚ))) (labels : List ℤ) :
    List Hotspot :=
  let pooled := pooledIncidents crime_locations
  if pooled.length < 5 then []
  else
    let pairs := labels.zip pooled
    let cluster_ids := labels.dedup.filter (fun cid => decide (cid ≠ -1))
    let hotspots := cluster_ids.map (fun cid =>
      mkHotspot ((pairs.filter (fun lp => decide (lp.1 = cid))).map Prod.snd))
    hotspots.mergeSort (fun a b => decide (b.intensity ≤ a.intensity))

theorem crime_weights_pos : ∀ p ∈ crime_weights, 0 < p.2 := by
  intro p hp
  simp only [crime_weights, List.mem_cons, List.not_mem_nil, or_false] at hp
  rcases hp with rfl | rfl | rfl | rfl | rfl | rfl | rfl | rfl | rfl | rfl | rfl |
    rfl | rfl | rfl <;> norm_num

theorem weightOf_pos (crime_type : String) : 0 < weightOf crime_type := by
  rw [weightOf]
  cases hlk : crime_weights.lookup crime_type with
  | none => norm_num
  | some w =>
      simp only [Option.getD_some]
      obtain ⟨l₁, l₂, hEq, -⟩ := List.lookup_eq_some_iff.mp hlk
      have hmem : (crime_type, w) ∈ crime_weights := by
        rw [hEq]
        exact List.mem_append_right _ (List.mem_cons_self _ _)
      exact crime_weights_pos _ hmem

theorem pooledIncidents_pos (crime_locations : List (String × List (ℚ × ℚ))) :
    ∀ pw ∈ pooledIncidents crime_locations, 0 < pw.2 := by
  intro pw hpw
  simp only [pooledIncidents, List.mem_flatMap, List.mem_map] at hpw
  obtain ⟨ctl, -, loc, -, rfl⟩ := hpw
  exact weightOf_pos _

theorem foldr_max_nonneg : ∀ l : List ℝ, 0 ≤ l.foldr max 0
  | [] => le_rfl
  | x :: xs => le_trans (foldr_max_nonneg xs) (le_max_right x _)

theorem mkHotspot_radius_nonneg (pts : List ((ℚ × ℚ) × ℚ)) :
    0 ≤ (mkHotspot pts).radius :=
  foldr_max_nonneg _

theorem mkHotspot_intensity_pos (pts : List ((ℚ × ℚ) × ℚ)) (hne : pts ≠ [])
    (hpos : ∀ pw ∈ pts, 0 < pw.2) : 0 < (mkHotspot pts).intensity := by
  have hI : (mkHotspot pts).intensity = (pts.map Prod.snd).sum := rfl
  rw [hI]
  refine List.sum_pos _ ?_ (by simpa using hne)
  intro x hx
  simp only [List.mem_map] at hx
  obtain ⟨pw, hpw, rfl⟩ := hx
  exact hpos pw hpw

theorem zip_filter_ne_nil {α : Type} :
    ∀ (labels : List ℤ) (pooled : List α), labels.length = pooled.length →
      ∀ cid ∈ labels,
        (labels.zip pooled).filter (fun lp => decide (lp.1 = cid)) ≠ []
  | [], _, _, cid, hcid => absurd hcid (List.not_mem_nil cid)
  | _ :: _, [], h, _, _ => by simp at h
  | l :: ls, p :: ps, h, cid, hcid => by
      simp only [List.zip_cons_cons, List.filter_cons]
      by_cases hc : l = cid
      · rw [if_pos (by simpa using hc)]
        simp
      · rw [if_neg (by simpa using hc)]
        have hcid' : cid ∈ ls := by
          rcases List.mem_cons.mp hcid with rfl | hm
          · exact absurd rfl hc
          · exact hm
        exact zip_filter_ne_nil ls ps (by simpa using h) cid hcid'

/-- C7: for every district pooling and every clustering label
assignment of the right length: a district with fewer than 5 pooled
incident points has an empty hotspot list; every produced hotspot has
radius at least 0 and intensity strictly positive (noise-labeled
points are excluded before building hotspots, and every member weight
is a positive severity weight); and the returned list is sorted in
descending order of intensity. -/
theorem identifyCrimeHotspots_invariants
    (crime_locations : List (String × List (ℚ × ℚ))) (labels : List ℤ)
    (hlen : labels.length = (pooledIncidents crime_locations).length) :
    ((pooledIncidents crime_locations).length < 5 →
      identifyCrimeHotspots crime_locations labels = []) ∧
    (∀ hs ∈ identifyCrimeHotspots crime_locations labels,
      0 ≤ hs.radius ∧ 0 < hs.intensity) ∧
    (identifyCrimeHotspots crime_locations labels).Pairwise
      (fun a b => b.intensity ≤ a.intensity) := by
  by_cases hshort : (pooledIncidents crime_locations).length < 5
  · rw [show identifyCrimeHotspots crime_locations labels = [] from by
      simp only [identifyCrimeHotspots]
      rw [if_pos hshort]]
    exact ⟨fun _ => rfl, fun hs h => absurd h (List.not_mem_nil hs), List.Pairwise.nil⟩
  · have hbody : identifyCrimeHotspots crime_locations labels =
        ((labels.dedup.filter (fun cid => decide (cid ≠ -1))).map (fun cid =>
          mkHotspot (((labels.zip (pooledIncidents crime_locations)).filter
            (fun lp => decide (lp.1 = cid))).map Prod.snd))).mergeSort
          (fun a b => decide (b.intensity ≤ a.intensity)) := by
      simp only [identifyCrimeHotspots]
      rw [if_neg hshort]
    refine ⟨fun h => absurd h hshort, ?_, ?_⟩
    · intro hs hmem
      rw [hbody] at hmem
      rw [(List.mergeSort_perm _ _).mem_iff] at hmem
      simp only [List.mem_map] at hmem
      obtain ⟨cid, hcid, rfl⟩ := hmem
      have hcid' : cid ∈ labels := by
        rcases List.mem_filter.mp hcid with ⟨hd, -⟩
        exact List.mem_dedup.mp hd
      refine ⟨mkHotspot_radius_nonneg _, mkHotspot_intensity_pos _ ?_ ?_⟩
      · have hne := zip_filter_ne_nil labels (pooledIncidents crime_locations)
          hlen cid hcid'
        simpa using hne
      · intro pw hpw
        simp only [List.mem_map] at hpw
        obtain ⟨lp, hlp, rfl⟩ := hpw
        have hzip := (List.mem_filter.mp hlp).1
        have := (List.of_mem_zip (show (lp.1, lp.2) ∈
          labels.zip (pooledIncidents crime_locations) from hzip)).2
        exact pooledIncidents_pos crime_locations lp.2 this
    · rw [hbody]
      have hsorted := @List.sorted_mergeSort Hotspot
        (fun a b : Hotspot => decide (b.intensity ≤ a.intensity))
        (fun a b c h1 h2 => by
          simp only [decide_eq_true_eq] at h1 h2 ⊢
          exact le_trans h2 h1)
        (fun a b => by
          simpa using le_total b.intensity a.intensity)
        ((labels.dedup.filter (fun cid => decide (cid ≠ -1))).map (fun cid =>
          mkHotspot (((labels.zip (pooledIncidents crime_locations)).filter
            (fun lp => decide (lp.1 = cid))).map Prod.snd)))
      exact hsorted.imp (fun h => by simpa using h)

/-- Witness for C7 at one crime type with a single incident point and
the single label 0 (fewer than 5 pooled points, so the hotspot list is
empty and the invariants hold vacuously). -/
theorem identifyCrimeHotspots_invariants_witness :
    ((pooledIncidents [("THEFT", [((0 : ℚ), (0 : ℚ))])]).length < 5 →
      identifyCrimeHotspots [("THEFT", [((0 : ℚ), (0 : ℚ))])] [0] = []) ∧
    (∀ hs ∈ identifyCrimeHotspots [("THEFT", [((0 : ℚ), (0 : ℚ))])] [0],
      0 ≤ hs.radius ∧ 0 < hs.intensity) ∧
    (identifyCrimeHotspots [("THEFT", [((0 : ℚ), (0 : ℚ))])] [0]).Pairwise
      (fun a b => b.intensity ≤ a.intensity) :=
  identifyCrimeHotspots_invariants [("THEFT", [((0 : ℚ), (0 : ℚ))])] [0] (by decide)

/-! ### Risk Evaluator: `_get_enhanced_location_risk_score`
(src/app3.py lines 411-462)

The sklearn KernelDensity model is abstracted by its score_samples
log-density function; shapely polygon containment by a Boolean
predicate per district.  The final steps of the method read
`self._pseudo_spatial_noise`, an attribute the class does not define
(the only `_pseudo_spatial_noise` in the file is a local function of
the script entry block, src/app3.py lines 1021-1025), so attribute
lookup raises AttributeError; that lookup is embedded as an
`Except.error` value. -/

/-- The time-of-day multiplier tables (src/app3.py lines 59-81). -/
def time_multipliers : List (String × List (String × ℚ)) :=
  [("early_morning", [("BURGLARY-NIGHT", 2.0), ("THEFT", 1.8), ("ROBBERY", 1.6)]),
   ("morning", [("THEFT", 0.7), ("BURGLARY-DAY", 1.2), ("FATAL MOTOR ACCIDENTS", 1.3)]),
   ("midday", [("THEFT", 0.8), ("BURGLARY-DAY", 1.5), ("CYBER CRIME", 1.2)]),
   ("afternoon", [("THEFT", 1.1), ("ROBBERY", 0.9), ("FATAL MOTOR ACCIDENTS", 1.4)]),
   ("evening", [("THEFT", 1.3), ("ROBBERY", 1.4), ("MOLESTATION", 1.6)]),
   ("night", [("BURGLARY-NIGHT", 2.2), ("ROBBERY", 1.8), ("MOLESTATION", 2.0),
              ("MURDER", 1.5)]),
   ("late_night", [("BURGLARY-NIGHT", 2.5), ("MURDER", 1.8), ("ROBBERY", 2.0)])]

/-- The day-of-week multiplier tables (src/app3.py lines 84-87). -/
def day_multipliers : List (String × List (String × ℚ)) :=
  [("weekday", [("BURGLARY-DAY", 1.2), ("CYBER CRIME", 1.1)]),
   ("weekend", [("ROBBERY", 1.3), ("THEFT", 1.2), ("MOLESTATION", 1.4)])]

/-- A fitted kernel density model, abstracted by its log-density
query function (score_samples on a single (lon, lat) sample). -/
structure KDEModel where
  score_samples : ℚ × ℚ → ℝ

/-- A district entry: its name, its polygon containment test, and its
per-crime-type fitted density models. -/
structure District where
  name : String
  contains : ℚ × ℚ → Bool
  crime_heatmaps : List (String × KDEModel)

/-- The district aggregate statistics consumed by the Risk Evaluator
(only the violence ratio is read; the other fields of crime_stats are
not used by this method). -/
structure CrimeStats where
  violence_ratio' : ℚ

structure Router where
  districts : List District
  crime_data : List (String × List (String × ℚ))
  crime_hotspots : List (String × List Hotspot)
  crime_stats : List (String × CrimeStats)

/-- Attribute lookup of `self._pseudo_spatial_noise` on the class
EnhancedCrimeAwareRouter: the class defines no such method or
attribute (the only definition of that name in src/app3.py is a local
function inside the script entry block, lines 1021-1025), so the
lookup raises AttributeError. -/
def pseudoSpatialNoiseLookup : Except String ℝ :=
  Except.error
    "AttributeError: EnhancedCrimeAwareRouter object has no attribute _pseudo_spatial_noise"

noncomputable def getEnhancedLocationRiskScore (R : Router) (point : ℚ × ℚ)
    (hour weekday : ℕ) : Except String ℝ :=
  let time_period := getTimePeriod hour
  let day_type := if 5 ≤ weekday then "weekend" else "weekday"
  match R.districts.find? (fun d => d.contains point) with
  | none => Except.ok 0
  | some d =>
    match R.crime_data.lookup d.name with
    | none => Except.ok 0
    | some _ =>
      let total_risk : ℝ := d.crime_heatmaps.foldl (fun acc ctk =>
        match crime_weights.lookup ctk.1 with
        | none => acc
        | some w =>
          let density := Real.exp (ctk.2.score_samples (point.2, point.1))
          let time_multiplier :=
            (((time_multipliers.lookup time_period).getD []).lookup ctk.1).getD 1.0
          let day_multiplier :=
            (((day_multipliers.lookup day_type).getD []).lookup ctk.1).getD 1.0
          acc + density * (w : ℝ) * (time_multiplier : ℝ) * (day_multiplier : ℝ)) 0
      let hotspots := (R.crime_hotspots.lookup d.name).getD []
      let total_risk := hotspots.foldl (fun acc hs =>
        let distance := Real.sqrt (((point.1 : ℝ) - (hs.center.1 : ℝ)) ^ 2 +
          ((point.2 : ℝ) - (hs.center.2 : ℝ)) ^ 2)
        if distance < hs.radius then
          acc + (hs.intensity : ℝ) * (1 - distance / hs.radius) * 0.1
        else acc) total_risk
      let district_risk_factor : ℝ := 1 +
        (match R.crime_stats.lookup d.name with
         | some st => (st.violence_ratio' : ℝ)
         | none => 0) * 0.5
      if total_risk < 1e-4 then
        match pseudoSpatialNoiseLookup with
        | Except.error e => Except.error e
        | Except.ok noise =>
          match pseudoSpatialNoiseLookup with
          | Except.error e => Except.error e
          | Except.ok noise2 =>
            Except.ok ((noise * 0.5 + 0.3) * district_risk_factor * noise2)
      else
        match pseudoSpatialNoiseLookup with
        | Except.error e => Except.error e
        | Except.ok noise2 => Except.ok (total_risk * district_risk_factor * noise2)

/-- C5: for every coordinate contained in no district polygon (and for
coordinates whose first containing district has no crime data entry),
the Risk Evaluator returns exactly 0: the early return fires before
any density, hotspot, fallback-noise or district-factor computation. -/
theorem riskScore_outside_zero (R : Router) (point : ℚ × ℚ) (hour weekday : ℕ)
    (h : ∀ d, R.districts.find? (fun dd => dd.contains point) = some d →
      R.crime_data.lookup d.name = none) :
    getEnhancedLocationRiskScore R point hour weekday = Except.ok 0 := by
  simp only [getEnhancedLocationRiskScore]
  cases hfind : R.districts.find? (fun d => d.contains point) with
  | none => rfl
  | some d =>
      dsimp only
      rw [h d hfind]

/-- A router whose single district contains every point but has no
crime data entry. -/
def routerNoCrimeData : Router where
  districts := [⟨"d", fun _ => true, []⟩]
  crime_data := []
  crime_hotspots := []
  crime_stats := []

/-- Witness for C5 at the all-containing district with no crime
data. -/
theorem riskScore_outside_zero_witness :
    getEnhancedLocationRiskScore routerNoCrimeData (0, 0) 12 0 = Except.ok 0 :=
  riskScore_outside_zero routerNoCrimeData (0, 0) 12 0 (fun _ _ => rfl)

/-- C1 (code bug): whenever the coordinate lies in a district that has
crime data, the method reaches the multiplication by
`self._pseudo_spatial_noise(point)` and raises AttributeError instead
of returning a non-negative scalar, because `_pseudo_spatial_noise` is
defined as a local function of the script entry block rather than as a
method of the class; the spec (and the per-crime-type try/except of
the method itself) make clear a bounded noise factor was intended. -/
theorem riskScore_raises_inside (R : Router) (point : ℚ × ℚ) (hour weekday : ℕ)
    (d : District) (hfind : R.districts.find? (fun dd => dd.contains point) = some d)
    (hcd : (R.crime_data.lookup d.name).isSome) :
    ∃ e, getEnhancedLocationRiskScore R point hour weekday = Except.error e := by
  simp only [getEnhancedLocationRiskScore]
  rw [hfind]
  dsimp only
  obtain ⟨v, hv⟩ := Option.isSome_iff_exists.mp hcd
  rw [hv]
  dsimp only
  refine ⟨"AttributeError: EnhancedCrimeAwareRouter object has no attribute _pseudo_spatial_noise", ?_⟩
  simp only [pseudoSpatialNoiseLookup]
  rw [ite_self]

/-- A router whose single district contains every point and has a
crime data entry. -/
def routerWithData : Router where
  districts := [⟨"d", fun _ => true, []⟩]
  crime_data := [("d", [("MURDER", 1)])]
  crime_hotspots := []
  crime_stats := []

/-- Witness for C1 at a concrete in-district coordinate with crime
data present: the evaluation is an AttributeError, not a scalar. -/
theorem riskScore_raises_inside_witness :
    ∃ e, getEnhancedLocationRiskScore routerWithData (0, 0) 12 0 = Except.error e :=
  riskScore_raises_inside routerWithData (0, 0) 12 0 ⟨"d", fun _ => true, []⟩
    rfl (by rfl)

end SafeSteps
